import Mathlib

/-!
Shallow embedding of the Certificate Lookup Service (src/backend.py).

Strings are modelled as lists of characters (`Str`).  The database is
modelled as two relations passed explicitly: a list of certificate rows
(the `certificates_deduped` view) and a list of recommendation rows
(the `certificates_deduped_recommendations` view).  Each HTTP handler
becomes a pure function from the database and the raw query parameters
to an `Except` value: `.error` for the 400/404 branches and `.ok` for
the JSON success payload.
-/

namespace EnergyCert

/-- Decidable equality of handler results, used to evaluate the handlers
on concrete databases. -/
instance {ε α : Type} [DecidableEq ε] [DecidableEq α] : DecidableEq (Except ε α)
  | .error e, .error f =>
    if h : e = f then .isTrue (congrArg Except.error h)
    else .isFalse (fun hh => h (Except.error.inj hh))
  | .error _, .ok _ => .isFalse Except.noConfusion
  | .ok _, .error _ => .isFalse Except.noConfusion
  | .ok a, .ok b =>
    if h : a = b then .isTrue (congrArg Except.ok h)
    else .isFalse (fun hh => h (Except.ok.inj hh))

/-- Python strings are modelled as lists of characters. -/
abbrev Str := List Char

/-- Python `str.strip()`: drop leading and trailing whitespace. -/
def pyStrip (s : Str) : Str :=
  ((s.dropWhile Char.isWhitespace).reverse.dropWhile Char.isWhitespace).reverse

/-- Python `str.upper()` restricted to the basic latin range, mapping each
character through `Char.toUpper`. -/
def pyUpper (s : Str) : Str := s.map Char.toUpper

/-- Python `str.replace` of the single space character by the empty string:
every occurrence of the space character (U+0020) is deleted; no other
whitespace character is touched. -/
def removeSpaces (s : Str) : Str := s.filter (fun c => decide (c ≠ ' '))

/-- The postcode normalization performed identically at backend.py:14 and
backend.py:42: first strip surrounding whitespace, then uppercase, then
delete space characters. -/
def normalizePostcode (s : Str) : Str := removeSpaces (pyUpper (pyStrip s))

/-- The REGEXP_EXTRACT of the search query (backend.py:25): the leading
run of decimal digits of the address, and the empty string when the
address has no leading digit, which is what the extraction returns on a
failed match in the engine used by the backend. -/
def leadingDigits : Str → Str
  | [] => []
  | c :: cs => if c.isDigit then c :: leadingDigits cs else []

/-- Decimal value of a digit string; applied only after the range check
of the cast below, mirroring that the cast only produces in-range
values. -/
def digitsVal (l : Str) : Nat := l.foldl (fun n c => 10 * n + (c.toNat - 48)) 0

/-- Largest INT32 value, the range of the INTEGER cast at backend.py:25. -/
def int32Max : Nat := 2147483647

/-- The strict CAST to INTEGER of the extracted digit run
(backend.py:25).  The cast raises a conversion error on the empty string
(the extraction result for an address with no leading digit) and on a
run whose value exceeds the INT32 range; `none` marks the raising cast,
`some` the produced key.  The cast never yields NULL, so the NULLS LAST
clause of the query only ever applies to NULL addresses. -/
def castKey (a : Str) : Option Int :=
  match leadingDigits a with
  | [] => none
  | ds => if digitsVal ds ≤ int32Max then some (digitsVal ds) else none

/-- Binary (code-point) string comparison, the default collation used by
the ORDER BY tie-break on the full address string. -/
def strLE : Str → Str → Bool
  | [], _ => true
  | _ :: _, [] => false
  | a :: as, b :: bs =>
    if a.toNat < b.toNat then true
    else if b.toNat < a.toNat then false
    else strLE as bs

/-- The comparator realized by the ORDER BY clause of the search query
(backend.py:24-26) on the rows that survive the cast: ascending integer
key, then the full address string as tie-break. -/
def keyAddrLE (x y : Int × Str) : Bool :=
  if x.1 < y.1 then true else if y.1 < x.1 then false else strLE x.2 y.2

/-- The ORDER BY relation on key-address pairs. -/
def keyAddrRel : Int × Str → Int × Str → Prop := fun x y => keyAddrLE x y = true

instance : DecidableRel keyAddrRel :=
  fun x y => inferInstanceAs (Decidable (keyAddrLE x y = true))

/-- Pairing of every matching address with its cast sort key; `none`
when the cast raises for some address, in which case the whole query
fails and the handler falls into its exception branch. -/
def keyedAddresses : List Str → Option (List (Int × Str))
  | [] => some []
  | a :: as =>
    match castKey a, keyedAddresses as with
    | some k, some rest => some ((k, a) :: rest)
    | _, _ => none

/-- One row of the `certificates_deduped` view, with the columns the
backend reads. -/
structure CertRow where
  postcode : Str
  address : Str
  currentEnergyRating : Str
  potentialEnergyRating : Str
  currentEnergyEfficiency : Int
  potentialEnergyEfficiency : Int
  lodgementDate : Str
deriving DecidableEq, Repr

/-- One row of the `certificates_deduped_recommendations` view.  Both the
improvement description and the indicative cost are nullable. -/
structure RecRow where
  postcode : Str
  address : Str
  description : Option Str
  cost : Option Int
deriving DecidableEq, Repr

/-- The error responses the service produces: 400 validation errors, the
404 not-found error, and the 500 server error of the exception branches,
each carrying the JSON error message. -/
inductive ApiError
  | validation (msg : Str)
  | notFound (msg : Str)
  | server (msg : Str)
deriving DecidableEq, Repr

/-- Message of the 500 response when the INTEGER cast of the sort key
raises (backend.py:36-37 returns the stringified exception; the engine
message text is abbreviated to its fixed kind here). -/
def conversionError : Str := "Conversion Error".toList

/-- JSON payload of a successful search (backend.py:31-35). -/
structure SearchResponse where
  postcode : Str
  addresses : List Str
  count : Nat
deriving DecidableEq, Repr

/-- The rows of `certificates_deduped` whose postcode equals the
normalized key, projected to their address (backend.py:20-29). -/
def matchingAddresses (db : List CertRow) (key : Str) : List Str :=
  (db.filter (fun r => decide (r.postcode = key))).map (fun r => r.address)

/-- The search handler (backend.py:11-37).  The raw postcode parameter
is normalized; an empty normalized postcode yields the 400 error before
any query runs.  Otherwise the query computes a cast sort key for every
matching row: if the cast raises for any of them (an address with no
leading digit, or an overflowing digit run), the exception branch at
backend.py:36 returns the 500 error; when every cast succeeds the
addresses are returned in the order of the ORDER BY clause, together
with the normalized postcode and a count. -/
def search_addresses (db : List CertRow) (postcodeRaw : Str) :
    Except ApiError SearchResponse :=
  let postcode := normalizePostcode postcodeRaw
  if postcode = [] then
    .error (.validation ("Postcode is required".toList))
  else
    match keyedAddresses (matchingAddresses db postcode) with
    | none => .error (.server conversionError)
    | some keyed =>
      let addresses := (List.insertionSort keyAddrRel keyed).map (fun x => x.2)
      .ok ⟨postcode, addresses, addresses.length⟩

/-- The value rendered into the cost field of a recommendation: either a
numeric value passed through unchanged, or the sentinel string written at
backend.py:84 for a falsy cost. -/
inductive CostVal
  | num (v : Int)
  | sentinel
deriving DecidableEq, Repr

/-- Rendering of the indicative cost (backend.py:84): the row value when
it is truthy, the sentinel otherwise.  Python truthiness makes both a
NULL cost and a zero cost falsy. -/
def renderCost : Option Int → CostVal
  | none => .sentinel
  | some v => if v = 0 then .sentinel else .num v

/-- One rendered recommendation row (backend.py:81-87): the description
column as fetched (nullable in the schema) and the rendered cost. -/
structure RecOut where
  description : Option Str
  cost : CostVal
deriving DecidableEq, Repr

/-- JSON payload of a successful rating lookup (backend.py:89-98). -/
structure RatingResponse where
  postcode : Str
  address : Str
  rating : Str
  potential_rating : Str
  current_efficiency : Int
  potential_efficiency : Int
  lodgement_date : Str
  recommendations : List RecOut
deriving DecidableEq, Repr

/-- Ascending comparison on nullable costs realized by the ORDER BY of
the recommendations query (backend.py:76), with the default NULLS LAST
placement of the database engine. -/
def costLE (a b : Option Int) : Bool :=
  match a, b with
  | none, none => true
  | none, some _ => false
  | some _, none => true
  | some m, some n => decide (m ≤ n)

/-- The recommendations ORDER BY relation on rows. -/
def recRel : RecRow → RecRow → Prop := fun a b => costLE a.cost b.cost = true

instance : DecidableRel recRel :=
  fun a b => inferInstanceAs (Decidable (costLE a.cost b.cost = true))

/-- Lookup of the single certificate row by exact key match
(backend.py:52-62, a fetchone over the deduped view). -/
def lookupCert (db : List CertRow) (pc addr : Str) : Option CertRow :=
  (db.filter (fun r => decide (r.postcode = pc ∧ r.address = addr))).head?

/-- The recommendation rows selected by the second query
(backend.py:69-78): exact key match and a non-null description. -/
def matchingRecs (recs : List RecRow) (pc addr : Str) : List RecRow :=
  recs.filter (fun r => decide (r.postcode = pc ∧ r.address = addr ∧ r.description ≠ none))

/-- The selected recommendation rows in the order of the ORDER BY on
indicative cost. -/
def sortedRecs (recs : List RecRow) (pc addr : Str) : List RecRow :=
  List.insertionSort recRel (matchingRecs recs pc addr)

/-- Rendering of one fetched recommendation row into the response shape
(backend.py:81-87). -/
def recOut (r : RecRow) : RecOut := ⟨r.description, renderCost r.cost⟩

/-- The success payload assembled at backend.py:89-98 from the fetched
certificate row and the rendered recommendations. -/
def ratingResponseOf (pc addr : Str) (row : CertRow) (recs : List RecRow) :
    RatingResponse :=
  { postcode := pc
    address := addr
    rating := row.currentEnergyRating
    potential_rating := row.potentialEnergyRating
    current_efficiency := row.currentEnergyEfficiency
    potential_efficiency := row.potentialEnergyEfficiency
    lodgement_date := row.lodgementDate
    recommendations := (sortedRecs recs pc addr).map recOut }

/-- The rating handler (backend.py:39-102).  The postcode is normalized
exactly as in search, the address is only trimmed; an empty normalized
field yields the 400 error before any query; a missing certificate row
yields the 404 error; otherwise the response is assembled from the unique
matched row and its recommendations. -/
def get_rating (db : List CertRow) (recs : List RecRow)
    (postcodeRaw addressRaw : Str) : Except ApiError RatingResponse :=
  let postcode := normalizePostcode postcodeRaw
  let address := pyStrip addressRaw
  if postcode = [] ∨ address = [] then
    .error (.validation ("Both postcode and address are required".toList))
  else
    match lookupCert db postcode address with
    | none => .error (.notFound ("No rating found for this address".toList))
    | some row => .ok (ratingResponseOf postcode address row recs)

/-- Health responses (backend.py:104-112): the healthy payload carries
the database connectivity confirmation, the unhealthy payload carries the
stringified exception. -/
inductive HealthResponse
  | healthy (database : Str)
  | unhealthy (error : Str)
deriving DecidableEq, Repr

/-- The health handler (backend.py:104-112).  The round-trip query on the
shared connection is modelled as an `Except` value: `.ok` when the data
source answered, `.error` carrying the exception text when it did not.
The handler catches the failure and always returns a response. -/
def health_check (ping : Except Str Unit) : HealthResponse :=
  match ping with
  | .ok _ => .healthy ("connected".toList)
  | .error e => .unhealthy e

/-- Normalization as the specification words it, for comparison with the
implementation: the input uppercased with every whitespace character
removed. -/
def specNormalize (s : Str) : Str :=
  (pyUpper s).filter (fun c => !c.isWhitespace)

/-- A certificate row of the ordering example, with fixed filler columns. -/
def exampleCert (addr : Str) : CertRow :=
  ⟨"OX11AA".toList, addr, "D".toList, "C".toList, 60, 75, "2020-01-01".toList⟩

/-- The four addresses of the ordering example from the specification,
stored out of order under one postcode. -/
def exampleDb : List CertRow :=
  [exampleCert ("2 Oak Rd".toList), exampleCert ("10 Oak Rd".toList),
   exampleCert ("Flat A".toList), exampleCert ("1 Oak Rd".toList)]

/-- A one-certificate database used to exercise the rating lookup. -/
def demoDb : List CertRow :=
  [⟨"E11AA".toList, "1 Main St".toList, "D".toList, "C".toList, 60, 75,
    "2020-01-01".toList⟩]

/-- One recommendation row for the certificate in `demoDb` whose
indicative cost is the number zero (non-null). -/
def demoRecs : List RecRow :=
  [⟨"E11AA".toList, "1 Main St".toList, some ("Insulation".toList), some 0⟩]

/-- One recommendation row for the certificate in `demoDb` whose
description is the empty string (non-null). -/
def demoRecsEmptyDescr : List RecRow :=
  [⟨"E11AA".toList, "1 Main St".toList, some [], some 500⟩]

/-- The search response produced on `demoDb`, whose single address
carries a leading digit, so the sort-key cast succeeds. -/
def demoSearchResponse : SearchResponse :=
  ⟨"E11AA".toList, ["1 Main St".toList], 1⟩

/-- The rating response produced on `demoDb` with `demoRecs`. -/
def demoRatingResponse : RatingResponse :=
  ⟨"E11AA".toList, "1 Main St".toList, "D".toList, "C".toList, 60, 75,
   "2020-01-01".toList, [⟨some ("Insulation".toList), CostVal.sentinel⟩]⟩

/-- The rating response produced on `demoDb` with `demoRecsEmptyDescr`. -/
def demoRatingResponseEmptyDescr : RatingResponse :=
  ⟨"E11AA".toList, "1 Main St".toList, "D".toList, "C".toList, 60, 75,
   "2020-01-01".toList, [⟨some [], CostVal.num 500⟩]⟩

/-! Order-theoretic facts about the two ORDER BY comparators. -/

theorem strLE_cons (x y : Char) (xs ys : Str) :
    strLE (x :: xs) (y :: ys) = true ↔
      x.toNat < y.toNat ∨ (x.toNat = y.toNat ∧ strLE xs ys = true) := by
  by_cases h1 : x.toNat < y.toNat
  · simp [strLE, h1]
  · by_cases h2 : y.toNat < x.toNat
    · simp only [strLE, if_neg h1, if_pos h2]
      constructor
      · intro h; cases h
      · intro h; omega
    · have h3 : ¬ (x.toNat = y.toNat) → False := by omega
      simp only [strLE, if_neg h1, if_neg h2]
      constructor
      · intro h; right; exact ⟨by omega, h⟩
      · intro h
        rcases h with h | ⟨_, h⟩
        · omega
        · exact h

theorem strLE_total : ∀ a b : Str, strLE a b = true ∨ strLE b a = true := by
  intro a
  induction a with
  | nil => intro b; left; rfl
  | cons x xs ih =>
    intro b
    cases b with
    | nil => right; rfl
    | cons y ys =>
      rw [strLE_cons, strLE_cons]
      rcases Nat.lt_trichotomy x.toNat y.toNat with h | h | h
      · left; left; exact h
      · rcases ih ys with ih1 | ih1
        · left; right; exact ⟨h, ih1⟩
        · right; right; exact ⟨h.symm, ih1⟩
      · right; left; exact h

theorem strLE_trans :
    ∀ a b c : Str, strLE a b = true → strLE b c = true → strLE a c = true := by
  intro a
  induction a with
  | nil => intro b c _ _; rfl
  | cons x xs ih =>
    intro b c hab hbc
    cases b with
    | nil => simp [strLE] at hab
    | cons y ys =>
      cases c with
      | nil => simp [strLE] at hbc
      | cons z zs =>
        rw [strLE_cons] at hab hbc ⊢
        rcases hab with h1 | ⟨h1, h2⟩
        · rcases hbc with h3 | ⟨h3, _⟩
          · left; omega
          · left; omega
        · rcases hbc with h3 | ⟨h3, h4⟩
          · left; omega
          · right; exact ⟨by omega, ih ys zs h2 h4⟩

theorem keyAddrLE_iff (x y : Int × Str) :
    keyAddrLE x y = true ↔ x.1 < y.1 ∨ (x.1 = y.1 ∧ strLE x.2 y.2 = true) := by
  unfold keyAddrLE
  by_cases h1 : x.1 < y.1
  · simp [h1]
  · by_cases h2 : y.1 < x.1
    · simp only [if_neg h1, if_pos h2]
      constructor
      · intro h; cases h
      · intro h; omega
    · simp only [if_neg h1, if_neg h2]
      constructor
      · intro h; right; exact ⟨by omega, h⟩
      · intro h
        rcases h with h | ⟨_, h⟩
        · omega
        · exact h

theorem keyAddrLE_total :
    ∀ x y : Int × Str, keyAddrLE x y = true ∨ keyAddrLE y x = true := by
  intro x y
  rw [keyAddrLE_iff, keyAddrLE_iff]
  rcases Int.lt_trichotomy x.1 y.1 with h | h | h
  · left; left; exact h
  · rcases strLE_total x.2 y.2 with h2 | h2
    · left; right; exact ⟨h, h2⟩
    · right; right; exact ⟨h.symm, h2⟩
  · right; left; exact h

theorem keyAddrLE_trans :
    ∀ x y z : Int × Str,
      keyAddrLE x y = true → keyAddrLE y z = true → keyAddrLE x z = true := by
  intro x y z hxy hyz
  rw [keyAddrLE_iff] at hxy hyz ⊢
  rcases hxy with h1 | ⟨h1, h2⟩
  · rcases hyz with h3 | ⟨h3, _⟩
    · left; omega
    · left; omega
  · rcases hyz with h3 | ⟨h3, h4⟩
    · left; omega
    · right; exact ⟨by omega, strLE_trans x.2 y.2 z.2 h2 h4⟩

instance : IsTotal (Int × Str) keyAddrRel := ⟨keyAddrLE_total⟩

instance : IsTrans (Int × Str) keyAddrRel := ⟨keyAddrLE_trans⟩

theorem costLE_total : ∀ a b : Option Int, costLE a b = true ∨ costLE b a = true := by
  intro a b
  rcases a with _ | m <;> rcases b with _ | n <;> simp [costLE]
  omega

theorem costLE_trans :
    ∀ a b c : Option Int,
      costLE a b = true → costLE b c = true → costLE a c = true := by
  intro a b c hab hbc
  rcases a with _ | m <;> rcases b with _ | n <;> rcases c with _ | p <;>
    simp [costLE] at hab hbc ⊢
  omega

instance : IsTotal RecRow recRel := ⟨fun a b => costLE_total a.cost b.cost⟩

instance : IsTrans RecRow recRel := ⟨fun a b c => costLE_trans a.cost b.cost c.cost⟩

/-! Facts about `Char.toUpper` on the basic latin range, used to reason
about the postcode normalization. -/

theorem exists_lower_rep (c : Char) (h1 : 97 ≤ c.toNat) (h2 : c.toNat ≤ 122) :
    ∃ n, 97 ≤ n ∧ n ≤ 122 ∧ c = Char.ofNat n :=
  ⟨c.toNat, h1, h2, (Char.ofNat_toNat c).symm⟩

theorem toUpper_of_not_lower (c : Char) (h : ¬ (97 ≤ c.toNat ∧ c.toNat ≤ 122)) :
    c.toUpper = c := by
  show (if c.toNat ≥ 97 ∧ c.toNat ≤ 122 then Char.ofNat (c.toNat - 32) else c) = c
  exact if_neg h

theorem toUpper_idem (c : Char) : c.toUpper.toUpper = c.toUpper := by
  by_cases h : 97 ≤ c.toNat ∧ c.toNat ≤ 122
  · obtain ⟨h1, h2⟩ := h
    obtain ⟨n, hn1, hn2, rfl⟩ := exists_lower_rep c h1 h2
    interval_cases n <;> decide
  · rw [toUpper_of_not_lower c h, toUpper_of_not_lower c h]

theorem isWhitespace_toUpper (c : Char) :
    c.toUpper.isWhitespace = c.isWhitespace := by
  by_cases h : 97 ≤ c.toNat ∧ c.toNat ≤ 122
  · obtain ⟨h1, h2⟩ := h
    obtain ⟨n, hn1, hn2, rfl⟩ := exists_lower_rep c h1 h2
    interval_cases n <;> decide
  · rw [toUpper_of_not_lower c h]

theorem toUpper_eq_space_iff (c : Char) : c.toUpper = ' ' ↔ c = ' ' := by
  by_cases h : 97 ≤ c.toNat ∧ c.toNat ≤ 122
  · obtain ⟨h1, h2⟩ := h
    obtain ⟨n, hn1, hn2, rfl⟩ := exists_lower_rep c h1 h2
    interval_cases n <;> decide
  · rw [toUpper_of_not_lower c h]

/-! List-level facts about stripping, uppercasing and space removal. -/

theorem head?_dropWhile (p : Char → Bool) (l : Str) :
    ∀ c, (l.dropWhile p).head? = some c → p c = false := by
  induction l with
  | nil => intro c h; cases h
  | cons x xs ih =>
    intro c h
    by_cases hp : p x
    · rw [List.dropWhile_cons_of_pos hp] at h
      exact ih c h
    · rw [List.dropWhile_cons_of_neg hp] at h
      cases h
      simpa using hp

theorem getLast?_dropWhile (p : Char → Bool) (l : Str) :
    l.dropWhile p = [] ∨ (l.dropWhile p).getLast? = l.getLast? := by
  induction l with
  | nil => left; rfl
  | cons x xs ih =>
    by_cases hp : p x
    · rw [List.dropWhile_cons_of_pos hp]
      rcases hd : xs.dropWhile p with _ | ⟨z, zs⟩
      · left; rfl
      · right
        rcases ih with h | h
        · rw [h] at hd; cases hd
        · rw [← hd, h]
          cases xs with
          | nil => cases hd
          | cons y ys => rw [List.getLast?_cons_cons]
    · right
      rw [List.dropWhile_cons_of_neg hp]

theorem pyStrip_head (s : Str) :
    ∀ c, (pyStrip s).head? = some c → c.isWhitespace = false := by
  intro c h
  unfold pyStrip at h
  rw [List.head?_reverse] at h
  rcases getLast?_dropWhile Char.isWhitespace (s.dropWhile Char.isWhitespace).reverse
      with h2 | h2
  · rw [h2] at h; cases h
  · rw [h2, List.getLast?_reverse] at h
    exact head?_dropWhile Char.isWhitespace s c h

theorem pyStrip_getLast (s : Str) :
    ∀ c, (pyStrip s).getLast? = some c → c.isWhitespace = false := by
  intro c h
  unfold pyStrip at h
  rw [List.getLast?_reverse] at h
  exact head?_dropWhile Char.isWhitespace _ c h

theorem pyStrip_eq_self (l : Str)
    (h1 : ∀ c, l.head? = some c → c.isWhitespace = false)
    (h2 : ∀ c, l.getLast? = some c → c.isWhitespace = false) :
    pyStrip l = l := by
  unfold pyStrip
  cases l with
  | nil => rfl
  | cons x xs =>
    have hx : x.isWhitespace = false := h1 x rfl
    rw [List.dropWhile_cons_of_neg (by simp [hx])]
    rcases hr : (x :: xs).reverse with _ | ⟨y, ys⟩
    · exact absurd (congrArg List.length hr) (by simp)
    · have hy : (x :: xs).getLast? = some y := by
        rw [← List.head?_reverse, hr, List.head?_cons]
      have hyw : y.isWhitespace = false := h2 y hy
      rw [List.dropWhile_cons_of_neg (by simp [hyw]), ← hr, List.reverse_reverse]

theorem head_filter_map (t : Str)
    (hh : ∀ c, t.head? = some c → c.isWhitespace = false) :
    ∀ c, ((t.map Char.toUpper).filter (fun c => decide (c ≠ ' '))).head? = some c →
      c.isWhitespace = false := by
  cases t with
  | nil => intro c h; cases h
  | cons a t2 =>
    intro c h
    have ha : a.isWhitespace = false := hh a rfl
    have hup : (Char.toUpper a).isWhitespace = false := by
      rw [isWhitespace_toUpper]; exact ha
    have hne : (decide (Char.toUpper a ≠ ' ')) = true := by
      simp only [decide_eq_true_eq]
      intro he
      rw [he] at hup
      exact absurd hup (by decide)
    rw [List.map_cons] at h
    have e : (List.filter (fun c => decide (c ≠ ' '))
          (a.toUpper :: t2.map Char.toUpper) : Str)
        = a.toUpper :: List.filter (fun c => decide (c ≠ ' ')) (t2.map Char.toUpper) :=
      List.filter_cons_of_pos hne
    rw [e, List.head?_cons] at h
    cases h
    exact hup

theorem normalizePostcode_head (s : Str) :
    ∀ c, (normalizePostcode s).head? = some c → c.isWhitespace = false :=
  head_filter_map (pyStrip s) (pyStrip_head s)

theorem normalizePostcode_getLast (s : Str) :
    ∀ c, (normalizePostcode s).getLast? = some c → c.isWhitespace = false := by
  intro c h
  have h2 : (normalizePostcode s).reverse.head? = some c := by
    rw [List.head?_reverse]; exact h
  have e : (normalizePostcode s).reverse
      = ((pyStrip s).reverse.map Char.toUpper).filter (fun c => decide (c ≠ ' ')) := by
    show ((((pyStrip s).map Char.toUpper).filter (fun c => decide (c ≠ ' '))).reverse : Str) = _
    rw [← List.filter_reverse, ← List.map_reverse]
  rw [e] at h2
  refine head_filter_map (pyStrip s).reverse ?_ c h2
  intro d hd
  rw [List.head?_reverse] at hd
  exact pyStrip_getLast s d hd

theorem pyUpper_normalizePostcode (s : Str) :
    pyUpper (normalizePostcode s) = normalizePostcode s := by
  show ((((pyStrip s).map Char.toUpper).filter
      (fun c => decide (c ≠ ' '))).map Char.toUpper : Str)
    = ((pyStrip s).map Char.toUpper).filter (fun c => decide (c ≠ ' '))
  rw [List.filter_map, List.map_map]
  have e : (Char.toUpper ∘ Char.toUpper) = Char.toUpper := funext toUpper_idem
  rw [e]

theorem removeSpaces_normalizePostcode (s : Str) :
    removeSpaces (normalizePostcode s) = normalizePostcode s :=
  List.filter_eq_self.mpr (fun _ ha => (List.mem_filter.mp ha).2)

/-! Claim theorems. -/

/-- C4: postcode normalization is idempotent: applying the normalization
performed at backend.py:14 twice yields the same result as applying it
once, for every input string. -/
theorem c4_normalizePostcode_idem (s : Str) :
    normalizePostcode (normalizePostcode s) = normalizePostcode s := by
  have hstrip : pyStrip (normalizePostcode s) = normalizePostcode s :=
    pyStrip_eq_self _ (normalizePostcode_head s) (normalizePostcode_getLast s)
  show removeSpaces (pyUpper (pyStrip (normalizePostcode s))) = normalizePostcode s
  rw [hstrip, pyUpper_normalizePostcode, removeSpaces_normalizePostcode]

/-- C5: for every database and every postcode whose normalization is
empty, the search handler returns the 400 validation error, and the
result is the same as on the empty database, so no query is executed. -/
theorem c5_search_empty_validation (db : List CertRow) (pc : Str)
    (h : normalizePostcode pc = []) :
    search_addresses db pc
        = .error (.validation ("Postcode is required".toList)) ∧
      search_addresses db pc = search_addresses [] pc := by
  have e : ∀ d : List CertRow,
      search_addresses d pc = .error (.validation ("Postcode is required".toList)) := by
    intro d
    simp only [search_addresses]
    rw [if_pos h]
  exact ⟨e db, (e db).trans (e []).symm⟩

/-- Closed instance of C5 at a concrete all-whitespace postcode. -/
theorem c5_search_empty_validation_witness :
    search_addresses exampleDb ("  ".toList)
        = .error (.validation ("Postcode is required".toList)) ∧
      search_addresses exampleDb ("  ".toList) = search_addresses [] ("  ".toList) :=
  c5_search_empty_validation exampleDb ("  ".toList) (by decide)

/-- C9: the claimed unconditional success fails on the code.  On the
example database the handler returns the 500 conversion error, because a
matching address has no leading digit and the strict INTEGER cast of the
empty extraction raises; on an empty match set the handler does return
the success payload carrying the normalized postcode, the empty sequence
and count zero. -/
theorem c9_search_success_bug :
    search_addresses exampleDb ("OX1 1AA".toList)
        = .error (.server conversionError) ∧
      search_addresses [] ("OX1 1AA".toList)
        = .ok ⟨"OX11AA".toList, [], 0⟩ := by
  decide

/-- C2: on the database holding exactly the four example addresses of
the claim, the search handler does not produce the ordered list: the
address with no leading digits makes the strict INTEGER cast of the
empty regexp extraction raise, so the handler answers with the 500
error and the claimed ordering is never returned. -/
theorem c2_search_ordering_bug :
    search_addresses exampleDb ("OX1 1AA".toList)
        = .error (.server conversionError) ∧
      (∃ row ∈ exampleDb, leadingDigits row.address = []) := by
  decide

/-- C3 counterexample: the implementation only deletes space characters
after stripping, so a postcode with an internal tab keeps the tab, while
uppercasing with all whitespace removed would delete it; the search
handler therefore uses a key different from the one the claim states. -/
theorem c3_counterexample :
    (search_addresses [] ("e1\t1aa".toList)).map SearchResponse.postcode
        = .ok ("E1\t1AA".toList) ∧
      ("E1\t1AA".toList : Str) ≠ specNormalize ("e1\t1aa".toList) := by
  decide

/-- C3 amended: for every input, the normalized key used by both the
search handler and the rating handler equals the input stripped of
surrounding whitespace, uppercased, with the space characters removed;
internal non-space whitespace is preserved. -/
theorem c3_amended_normalized_key (db : List CertRow) (recs : List RecRow)
    (pc addr : Str) (r : SearchResponse) (r2 : RatingResponse) :
    (search_addresses db pc = .ok r →
      r.postcode = removeSpaces (pyUpper (pyStrip pc))) ∧
    (get_rating db recs pc addr = .ok r2 →
      r2.postcode = removeSpaces (pyUpper (pyStrip pc))) := by
  constructor
  · intro hok
    by_cases h : normalizePostcode pc = []
    · simp only [search_addresses] at hok
      rw [if_pos h] at hok
      cases hok
    · simp only [search_addresses] at hok
      rw [if_neg h] at hok
      rcases hk : keyedAddresses (matchingAddresses db (normalizePostcode pc))
          with _ | keyed
      · rw [hk] at hok; cases hok
      · rw [hk] at hok; cases hok; rfl
  · intro hok
    by_cases h : normalizePostcode pc = [] ∨ pyStrip addr = []
    · simp only [get_rating] at hok
      rw [if_pos h] at hok
      cases hok
    · simp only [get_rating] at hok
      rw [if_neg h] at hok
      rcases hl : lookupCert db (normalizePostcode pc) (pyStrip addr) with _ | row
      · rw [hl] at hok; cases hok
      · rw [hl] at hok; cases hok; rfl

/-- Closed instance of the amended C3 on the demo database. -/
theorem c3_amended_normalized_key_witness :
    demoSearchResponse.postcode
        = removeSpaces (pyUpper (pyStrip ("E1 1AA".toList))) ∧
      demoRatingResponse.postcode
        = removeSpaces (pyUpper (pyStrip ("E1 1AA".toList))) :=
  ⟨(c3_amended_normalized_key demoDb [] ("E1 1AA".toList) []
      demoSearchResponse demoRatingResponse).1 (by decide),
   (c3_amended_normalized_key demoDb demoRecs ("E1 1AA".toList)
      ("1 Main St".toList) demoSearchResponse demoRatingResponse).2 (by decide)⟩

/-- C6: the rating lookup returns the 400 validation error when either
normalized field is empty, a single success record assembled from a row
when a row with the exact key exists, and the 404 not-found error when no
row matches. -/
theorem c6_rating_contract (db : List CertRow) (recs : List RecRow)
    (pc addr : Str) :
    (normalizePostcode pc = [] ∨ pyStrip addr = [] →
      get_rating db recs pc addr
        = .error (.validation ("Both postcode and address are required".toList))) ∧
    (normalizePostcode pc ≠ [] → pyStrip addr ≠ [] →
      (∃ row ∈ db, row.postcode = normalizePostcode pc ∧
        row.address = pyStrip addr) →
      ∃ resp, get_rating db recs pc addr = .ok resp) ∧
    (normalizePostcode pc ≠ [] → pyStrip addr ≠ [] →
      (∀ row ∈ db, ¬ (row.postcode = normalizePostcode pc ∧
        row.address = pyStrip addr)) →
      get_rating db recs pc addr
        = .error (.notFound ("No rating found for this address".toList))) := by
  refine ⟨?_, ?_, ?_⟩
  · intro h
    simp only [get_rating]
    rw [if_pos h]
  · intro h1 h2 hex
    obtain ⟨row, hmem, hkey⟩ := hex
    have hne : ¬ (normalizePostcode pc = [] ∨ pyStrip addr = []) := by
      intro hc
      rcases hc with hc | hc
      · exact h1 hc
      · exact h2 hc
    simp only [get_rating]
    rw [if_neg hne]
    rcases hl : lookupCert db (normalizePostcode pc) (pyStrip addr) with _ | row2
    · exfalso
      unfold lookupCert at hl
      rw [List.head?_eq_none_iff] at hl
      have hin : row ∈ db.filter (fun x =>
          decide (x.postcode = normalizePostcode pc ∧ x.address = pyStrip addr)) :=
        List.mem_filter.mpr ⟨hmem, by simpa using hkey⟩
      rw [hl] at hin
      cases hin
    · exact ⟨_, rfl⟩
  · intro h1 h2 hnone
    have hne : ¬ (normalizePostcode pc = [] ∨ pyStrip addr = []) := by
      intro hc
      rcases hc with hc | hc
      · exact h1 hc
      · exact h2 hc
    simp only [get_rating]
    rw [if_neg hne]
    have hl : lookupCert db (normalizePostcode pc) (pyStrip addr) = none := by
      unfold lookupCert
      rw [List.head?_eq_none_iff, List.filter_eq_nil_iff]
      intro a ha
      simpa using hnone a ha
    rw [hl]

/-- Closed instance of C6 exercising all three branches on the demo
database. -/
theorem c6_rating_contract_witness :
    get_rating demoDb demoRecs ("  ".toList) ("1 Main St".toList)
        = .error (.validation ("Both postcode and address are required".toList)) ∧
      (∃ resp, get_rating demoDb demoRecs ("E1 1AA".toList) ("1 Main St".toList)
        = .ok resp) ∧
      get_rating demoDb demoRecs ("E1 1AA".toList) ("2 Other St".toList)
        = .error (.notFound ("No rating found for this address".toList)) :=
  ⟨(c6_rating_contract demoDb demoRecs ("  ".toList) ("1 Main St".toList)).1
      (by decide),
   (c6_rating_contract demoDb demoRecs ("E1 1AA".toList) ("1 Main St".toList)).2.1
      (by decide) (by decide) (by decide),
   (c6_rating_contract demoDb demoRecs ("E1 1AA".toList) ("2 Other St".toList)).2.2
      (by decide) (by decide) (by decide)⟩

/-- C7: every successful rating response surfaces no recommendation with
a null description, and the rendered rows come from the selected rows in
ascending indicative-cost order. -/
theorem c7_recommendations_invariant (db : List CertRow) (recs : List RecRow)
    (pc addr : Str) (resp : RatingResponse)
    (hok : get_rating db recs pc addr = .ok resp) :
    (∀ o ∈ resp.recommendations, o.description ≠ none) ∧
    ∃ rows : List RecRow,
      List.Sorted recRel rows ∧
      rows.Perm (matchingRecs recs (normalizePostcode pc) (pyStrip addr)) ∧
      resp.recommendations = rows.map recOut := by
  by_cases h : normalizePostcode pc = [] ∨ pyStrip addr = []
  · simp only [get_rating] at hok
    rw [if_pos h] at hok
    cases hok
  · simp only [get_rating] at hok
    rw [if_neg h] at hok
    rcases hl : lookupCert db (normalizePostcode pc) (pyStrip addr) with _ | row
    · rw [hl] at hok; cases hok
    · rw [hl] at hok
      cases hok
      constructor
      · intro o ho
        simp only [ratingResponseOf] at ho
        rcases List.mem_map.mp ho with ⟨rr, hrr, rfl⟩
        have hmem : rr ∈ matchingRecs recs (normalizePostcode pc) (pyStrip addr) :=
          (List.perm_insertionSort recRel _).mem_iff.mp hrr
        have hprop := (List.mem_filter.mp hmem).2
        simp only [decide_eq_true_eq] at hprop
        exact hprop.2.2
      · exact ⟨sortedRecs recs (normalizePostcode pc) (pyStrip addr),
          List.sorted_insertionSort recRel _,
          List.perm_insertionSort recRel _, rfl⟩

/-- Closed instance of C7 on the demo database. -/
theorem c7_recommendations_invariant_witness :
    (∀ o ∈ demoRatingResponse.recommendations, o.description ≠ none) ∧
    ∃ rows : List RecRow,
      List.Sorted recRel rows ∧
      rows.Perm (matchingRecs demoRecs (normalizePostcode ("E1 1AA".toList))
        (pyStrip ("1 Main St".toList))) ∧
      demoRatingResponse.recommendations = rows.map recOut :=
  c7_recommendations_invariant demoDb demoRecs ("E1 1AA".toList)
    ("1 Main St".toList) demoRatingResponse (by decide)

/-- C1 counterexample: a recommendation whose indicative cost is the
number zero is non-null yet rendered as the sentinel, because the code
tests Python truthiness rather than nullness; the sentinel is not the
numeric value zero. -/
theorem c1_counterexample :
    (get_rating demoDb demoRecs ("E1 1AA".toList) ("1 Main St".toList)).map
        RatingResponse.recommendations
      = .ok [⟨some ("Insulation".toList), CostVal.sentinel⟩] ∧
      CostVal.sentinel ≠ CostVal.num 0 := by
  decide

/-- C1 amended: in every rating response, each rendered recommendation
comes from a source row; a null or zero indicative cost is rendered as
the sentinel, and a non-null nonzero numeric cost is rendered as that
exact numeric value unchanged. -/
theorem c1_amended_cost_rendering (db : List CertRow) (recs : List RecRow)
    (pc addr : Str) (resp : RatingResponse)
    (hok : get_rating db recs pc addr = .ok resp) :
    ∀ o ∈ resp.recommendations, ∃ src ∈ recs,
      o.description = src.description ∧
      o.cost = renderCost src.cost ∧
      ((src.cost = none ∨ src.cost = some 0) → o.cost = CostVal.sentinel) ∧
      (∀ v : Int, src.cost = some v → v ≠ 0 → o.cost = CostVal.num v) := by
  by_cases h : normalizePostcode pc = [] ∨ pyStrip addr = []
  · simp only [get_rating] at hok
    rw [if_pos h] at hok
    cases hok
  · simp only [get_rating] at hok
    rw [if_neg h] at hok
    rcases hl : lookupCert db (normalizePostcode pc) (pyStrip addr) with _ | row
    · rw [hl] at hok; cases hok
    · rw [hl] at hok
      cases hok
      intro o ho
      simp only [ratingResponseOf] at ho
      rcases List.mem_map.mp ho with ⟨rr, hrr, rfl⟩
      have hmem : rr ∈ matchingRecs recs (normalizePostcode pc) (pyStrip addr) :=
        (List.perm_insertionSort recRel _).mem_iff.mp hrr
      refine ⟨rr, (List.mem_filter.mp hmem).1, rfl, rfl, ?_, ?_⟩
      · intro hc
        show renderCost rr.cost = CostVal.sentinel
        rcases hc with hc | hc <;> rw [hc] <;> decide
      · intro v hv hv0
        show renderCost rr.cost = CostVal.num v
        rw [hv]
        simp [renderCost, hv0]

/-- Closed instance of the amended C1 at the one rendered row of the
demo database. -/
theorem c1_amended_cost_rendering_witness :
    ∃ src ∈ demoRecs,
      (⟨some ("Insulation".toList), CostVal.sentinel⟩ : RecOut).description
          = src.description ∧
      (⟨some ("Insulation".toList), CostVal.sentinel⟩ : RecOut).cost
          = renderCost src.cost ∧
      ((src.cost = none ∨ src.cost = some 0) →
        (⟨some ("Insulation".toList), CostVal.sentinel⟩ : RecOut).cost
          = CostVal.sentinel) ∧
      (∀ v : Int, src.cost = some v → v ≠ 0 →
        (⟨some ("Insulation".toList), CostVal.sentinel⟩ : RecOut).cost
          = CostVal.num v) :=
  c1_amended_cost_rendering demoDb demoRecs ("E1 1AA".toList)
    ("1 Main St".toList) demoRatingResponse (by decide)
    ⟨some ("Insulation".toList), CostVal.sentinel⟩ (by decide)

/-- C10: a recommendation row whose description is the empty string is
surfaced by a successful rating lookup, since only null descriptions are
filtered out. -/
theorem c10_empty_description_surfaced (db : List CertRow) (recs : List RecRow)
    (pc addr : Str) (resp : RatingResponse) (q : RecRow)
    (hok : get_rating db recs pc addr = .ok resp)
    (hq : q ∈ recs) (hqp : q.postcode = normalizePostcode pc)
    (hqa : q.address = pyStrip addr) (hqd : q.description = some []) :
    ∃ o ∈ resp.recommendations, o.description = some [] := by
  by_cases h : normalizePostcode pc = [] ∨ pyStrip addr = []
  · simp only [get_rating] at hok
    rw [if_pos h] at hok
    cases hok
  · simp only [get_rating] at hok
    rw [if_neg h] at hok
    rcases hl : lookupCert db (normalizePostcode pc) (pyStrip addr) with _ | row
    · rw [hl] at hok; cases hok
    · rw [hl] at hok
      cases hok
      have hmem : q ∈ matchingRecs recs (normalizePostcode pc) (pyStrip addr) := by
        refine List.mem_filter.mpr ⟨hq, ?_⟩
        simp only [decide_eq_true_eq]
        refine ⟨hqp, hqa, ?_⟩
        rw [hqd]
        intro hc
        cases hc
      have hsorted : q ∈ sortedRecs recs (normalizePostcode pc) (pyStrip addr) :=
        (List.perm_insertionSort recRel _).mem_iff.mpr hmem
      refine ⟨recOut q, ?_, ?_⟩
      · simp only [ratingResponseOf]
        exact List.mem_map.mpr ⟨q, hsorted, rfl⟩
      · show q.description = some []
        exact hqd

/-- Closed instance of C10 on the demo database. -/
theorem c10_empty_description_surfaced_witness :
    ∃ o ∈ demoRatingResponseEmptyDescr.recommendations,
      o.description = some [] :=
  c10_empty_description_surfaced demoDb demoRecsEmptyDescr ("E1 1AA".toList)
    ("1 Main St".toList) demoRatingResponseEmptyDescr
    ⟨"E11AA".toList, "1 Main St".toList, some [], some 500⟩
    (by decide) (by decide) (by decide) (by decide) (by decide)

/-- C8: the health handler answers every ping outcome with a response:
a reachable data source yields the healthy payload with the connectivity
confirmation, an unreachable one yields the unhealthy payload carrying
the failure text, which is non-empty whenever the failure text is. -/
theorem c8_health_check_total (ping : Except Str Unit) :
    (health_check ping = .healthy ("connected".toList) ∨
      ∃ msg, health_check ping = .unhealthy msg) ∧
    (ping = .ok () → health_check ping = .healthy ("connected".toList)) ∧
    (∀ e, ping = .error e →
      ∃ msg, health_check ping = .unhealthy msg ∧ (e ≠ [] → msg ≠ [])) := by
  refine ⟨?_, ?_, ?_⟩
  · cases ping with
    | ok u => left; rfl
    | error e => right; exact ⟨e, rfl⟩
  · intro h
    rw [h]
    rfl
  · intro e h
    rw [h]
    exact ⟨e, rfl, fun hne => hne⟩

/-- Closed instance of C8 for a reachable and an unreachable store. -/
theorem c8_health_check_total_witness :
    health_check (.ok ()) = .healthy ("connected".toList) ∧
      ∃ msg, health_check (.error ("connection failed".toList))
          = .unhealthy msg ∧
        (("connection failed".toList : Str) ≠ [] → msg ≠ []) :=
  ⟨(c8_health_check_total (.ok ())).2.1 rfl,
   (c8_health_check_total (.error ("connection failed".toList))).2.2
     ("connection failed".toList) rfl⟩

end EnergyCert
